import Mathlib

/-!
Shallow embedding of the Albo lesion-detection pipeline driver and context
(`lesionpypeline/pipeline.py`): the sequence-path dictionary, configuration
validation, the per-stage selection helpers, the driver branching (including
the DWI/ADC special case), the memoized invoker contract, and the final
publication of the two output files.  Theorems about these definitions follow
the definitions.
-/

namespace Albo

/-- Errors raised by the embedded Python code: RuntimeError and ValueError
with their message, and NameError/UnboundLocalError with the offending
variable name. -/
inductive PyErr where
  | runtimeError (msg : String)
  | valueError (msg : String)
  | nameError (nm : String)
  deriving DecidableEq

/-- A Python dict from sequence identifier to file path, as an
insertion-ordered association list whose keys are unique (the Python dict
invariant). -/
abbrev Dict := List (String × String)

/-- The key view of a dict (`viewkeys()`), in insertion order. -/
def dictKeys (d : Dict) : List String := d.map Prod.fst

/-- Python `d[k]` as an optional lookup. -/
def dictLookup (d : Dict) (k : String) : Option String := List.lookup k d

/-- Python `k in d`: key membership, i.e. the key lookup succeeds. -/
def dictContains (d : Dict) (k : String) : Bool := (dictLookup d k).isSome

/-- Python `d[k]` where the key is known to be present; defaults to the empty
string on the (never exercised) missing-key case. -/
def dictGet (d : Dict) (k : String) : String := (dictLookup d k).getD ""

/-- Python `d[k] = v`: replace the binding in place when the key is present,
append it otherwise. -/
def dictSet (d : Dict) (k v : String) : Dict :=
  if dictContains d k then d.map (fun kv => if kv.1 == k then (k, v) else kv)
  else d ++ [(k, v)]

/-- The module-level sequence-identifier constants of pipeline.py. -/
def ADC : String := "adc"

/-- The DWI sequence identifier constant of pipeline.py. -/
def DWI : String := "dwi"

/-- One ASCII single-quote character, as used by the Python repr of a string. -/
def sq : String := "\x27"

/-- Whether a string begins with a slash (the `startswith` test of
os.path.join and os.path.abspath), computed on the character list. -/
def strStartsWithSlash (s : String) : Bool :=
  match s.data with
  | [] => false
  | c :: _ => c == '/'

/-- Whether a string ends with a slash (the `endswith` test of os.path.join),
computed on the character list. -/
def strEndsWithSlash (s : String) : Bool :=
  match s.data.getLast? with
  | some c => c == '/'
  | none => false

/-- Joining a list of strings with a comma-space separator (the shape Python
repr uses between list elements). -/
def joinCommaSpace : List String → String
  | [] => ""
  | [x] => x
  | x :: xs => x ++ ", " ++ joinCommaSpace xs

/-- The Python repr of a list of strings, as interpolated by str.format when
handed a list (e.g. a candidate-sequence list in an error message). -/
def pyRepr (l : List String) : String :=
  "[" ++ joinCommaSpace (l.map (fun s => sq ++ s ++ sq)) ++ "]"

/-- os.path.join restricted to the two-argument joins the source performs. -/
def pathJoin (a b : String) : String :=
  if strStartsWithSlash b then b
  else if a == "" || strEndsWithSlash a then a ++ b
  else a ++ "/" ++ b

/-- os.path.abspath relative to a fixed working directory.  Normalisation of
`..` and `.` components, which no configured path in this development uses, is
not modelled. -/
def abspath (cwd p : String) : String :=
  if strStartsWithSlash p then p else pathJoin cwd p

/-- The file system as the source observes it through os.path.isdir,
os.path.isfile, os.makedirs, os.remove and os.symlink: a set of directories
and a map from file path to content (for a symlink, its target). -/
structure FS where
  dirs : List String
  files : List (String × String)
  deriving DecidableEq

/-- os.path.isdir. -/
def isdir (fs : FS) (p : String) : Bool := fs.dirs.contains p

/-- os.path.isfile. -/
def isfile (fs : FS) (p : String) : Bool := fs.files.any (fun kv => kv.1 == p)

/-- os.makedirs; OS-level failures (permissions, a file occupying the path)
are outside the model. -/
def makedirs (fs : FS) (p : String) : FS := { fs with dirs := p :: fs.dirs }

/-- os.remove. -/
def removeFile (fs : FS) (p : String) : FS :=
  { fs with files := fs.files.filter (fun kv => kv.1 != p) }

/-- os.symlink src dst: creates dst referring to src. -/
def symlink (fs : FS) (src dst : String) : FS :=
  { fs with files := (dst, src) :: fs.files }

/-- The content (symlink target) recorded at a path, if any. -/
def fsFileLookup (fs : FS) (p : String) : Option String := List.lookup p fs.files

/-- The raw string values the source reads from the ConfigParser object. -/
structure Config where
  cacheDir : String
  outputDir : String
  pixelSpacing : String
  elastixParameterFile : String
  registrationBase : String
  baseImage : String
  modelDir : String
  featureConfigFile : String
  forestDir : String
  deriving DecidableEq

/-- The validated pipeline context built by PipelineContext.__init__. -/
structure PipelineContext where
  cacheDir : String
  outputDir : String
  pixelSpacing : List String
  elastixParameterFile : String
  registrationBaseList : List String
  skullstrippingBaseList : List String
  intensityModelDir : String
  featureConfigFile : String
  forestDir : String
  deriving DecidableEq

/-- The warning logged by _check_configured_directory for a missing
directory (pipeline.py:89-91; the two adjacent string literals concatenate). -/
def dirWarning (nm pa : String) : String :=
  "The configured " ++ nm ++ " " ++ pa ++ " does not exist" ++
    " - attempting to create directory..."

/-- _check_configured_directory (pipeline.py:86-93): absolutise the path,
create the directory with a warning when it is missing, and return the
possibly updated file system, the absolute path, and the warning if one was
logged. -/
def check_configured_directory (cwd : String) (fs : FS) (p nm : String) :
    FS × String × Option String :=
  let pa := abspath cwd p
  if isdir fs pa then (fs, pa, none)
  else (makedirs fs pa, pa, some (dirWarning nm pa))

/-- _check_configured_file (pipeline.py:96-101): absolutise the path and fail
with ValueError when no file exists there. -/
def check_configured_file (cwd : String) (fs : FS) (p nm : String) :
    Except PyErr String :=
  let pa := abspath cwd p
  if isfile fs pa then Except.ok pa
  else Except.error (.valueError
    ("The configured " ++ nm ++ " " ++ pa ++ " does not exist!"))

/-- Splitting a character list at a separator character, keeping empty
pieces: the behaviour of Python str.split with an explicit separator. -/
def splitCharAux (sep : Char) : List Char → List Char → List String
  | [], cur => [⟨cur.reverse⟩]
  | c :: cs, cur =>
    if c == sep then (⟨cur.reverse⟩ : String) :: splitCharAux sep cs []
    else splitCharAux sep cs (c :: cur)

/-- Python `s.split(sep)` for a one-character separator. -/
def splitChar (s : String) (sep : Char) : List String := splitCharAux sep s.data []

/-- Python str.strip: drop leading and trailing whitespace. -/
def trimChar (s : String) : String :=
  ⟨((s.data.dropWhile Char.isWhitespace).reverse.dropWhile Char.isWhitespace).reverse⟩

/-- Python float() acceptance for the decimal literals the configuration uses:
optional surrounding whitespace, optional sign, digits with at most one dot.
Exotic float syntax (exponents, inf, nan) is not modelled; no configured value
in this development uses it. -/
def isPyFloat (s : String) : Bool :=
  let t := (trimChar s).data
  let t := match t with
    | c :: rest => if c == '+' || c == '-' then rest else c :: rest
    | [] => []
  match splitCharAux '.' t [] with
  | [a] => !a.isEmpty && a.data.all Char.isDigit
  | [a, b] => (!a.isEmpty || !b.isEmpty) &&
      a.data.all Char.isDigit && b.data.all Char.isDigit
  | _ => false

/-- The statement `x, y, z = map(float, pixel_spacing.split(','))`
(pipeline.py:146): succeeds exactly when the string has three comma-separated
float components, and raises ValueError otherwise (both a non-float component
and a wrong component count raise ValueError, caught at pipeline.py:147). -/
def parsePixelSpacing (s : String) : Option (List String) :=
  let parts := splitChar s ','
  if parts.length == 3 && parts.all isPyFloat then some parts else none

/-- Python `map(str.strip, s.split(','))` (pipeline.py:158 and 161). -/
def splitStrip (s : String) : List String := (splitChar s ',').map trimChar

/-- PipelineContext.__init__ (pipeline.py:126-175): validate the configuration
eagerly, in source order, creating missing directories (with a warning) and
failing on missing files.  Returns the file system after any directory
creation, the warnings recorded so far, and the constructed context or the
raised error. -/
def contextInit (cwd : String) (config : Config) (fs : FS) :
    FS × List String × Except PyErr PipelineContext :=
  let r1 := check_configured_directory cwd fs config.cacheDir "cache directory"
  let r2 := check_configured_directory cwd r1.1 config.outputDir "output directory"
  let ws2 := r1.2.2.toList ++ r2.2.2.toList
  match parsePixelSpacing config.pixelSpacing with
  | none =>
    (r2.1, ws2, Except.error (.valueError
      ("The configured pixel spacing " ++ config.pixelSpacing ++ " is invalid; must" ++
        "be exactly 3 comma-separated numbers with a dot" ++ "as decimal mark!")))
  | some spacing =>
    match check_configured_file cwd r2.1 config.elastixParameterFile
        "elastix configuration file" with
    | .error e => (r2.1, ws2, .error e)
    | .ok elastixFile =>
      let registrationBaseList := splitStrip config.registrationBase
      let skullstrippingBaseList := splitStrip config.baseImage
      let r3 := check_configured_directory cwd r2.1 config.modelDir
        "intensity model directory"
      let ws3 := ws2 ++ r3.2.2.toList
      match check_configured_file cwd r3.1 config.featureConfigFile
          "feature configuration file" with
      | .error e => (r3.1, ws3, .error e)
      | .ok featureConfigFile =>
        let r4 := check_configured_directory cwd r3.1 config.forestDir
          "classification forest directory"
        (r4.1, ws3 ++ r4.2.2.toList, Except.ok
          { cacheDir := r1.2.1, outputDir := r2.2.1, pixelSpacing := spacing,
            elastixParameterFile := elastixFile,
            registrationBaseList := registrationBaseList,
            skullstrippingBaseList := skullstrippingBaseList,
            intensityModelDir := r3.2.1,
            featureConfigFile := featureConfigFile, forestDir := r4.2.1 })

/-- The scan loop shared verbatim by get_registration_base and
get_skullstripping_base (pipeline.py:201-203 and 227-229): the first
configured candidate present among the available sequences. -/
def scanList : List String → List String → Option String
  | [], _ => none
  | s :: rest, seqs => if seqs.contains s then some s else scanList rest seqs

/-- PipelineContext.get_registration_base (pipeline.py:182-206); the sequences
argument is the key view of the sequence dict. -/
def get_registration_base (ctx : PipelineContext) (sequences : List String) :
    Except PyErr String :=
  match scanList ctx.registrationBaseList sequences with
  | some s => .ok s
  | none => .error (.runtimeError
      ("None of the configured registration base sequences" ++
        pyRepr ctx.registrationBaseList ++ " is present!"))

/-- PipelineContext.get_skullstripping_base (pipeline.py:208-232).  The
candidate scan uses the skull-stripping list, but the error message at
pipeline.py:232 interpolates self._registration_base_list. -/
def get_skullstripping_base (ctx : PipelineContext) (sequences : List String) :
    Except PyErr String :=
  match scanList ctx.skullstrippingBaseList sequences with
  | some s => .ok s
  | none => .error (.runtimeError
      ("None of the configured skullstripping base" ++ "sequences " ++
        pyRepr ctx.registrationBaseList ++ " is present!"))

/-- PipelineContext.get_intensity_model (pipeline.py:234-258): deterministic
path construction into the model directory, failing when no file exists there
(the two adjacent message literals concatenate without a space). -/
def get_intensity_model (ctx : PipelineContext) (fs : FS) (sequence : String) :
    Except PyErr String :=
  let path := pathJoin ctx.intensityModelDir
    ("intensity_model_" ++ sequence ++ ".pkl")
  if isfile fs path then .ok path
  else .error (.valueError
    ("No intensity model found; model file was" ++ "expected at " ++ path))

/-- Python set equality of two string collections: mutual membership. -/
def setEq (xs ys : List String) : Bool :=
  xs.all (fun x => ys.contains x) && ys.all (fun y => xs.contains y)

/-- The one hardcoded sequence-identifier combination of get_forest
(pipeline.py:279-280). -/
def forestCombination : List String := ["flair_tra", "dw_tra_b1000_dmean", "t1_sag_tfe"]

/-- PipelineContext.get_forest (pipeline.py:260-283): exact set equality of
the dict keys against the one hardcoded combination. -/
def get_forest (ctx : PipelineContext) (sequences : Dict) : Except PyErr String :=
  if setEq (dictKeys sequences) forestCombination then
    .ok (pathJoin ctx.forestDir "forest.pklz")
  else .error (.valueError "No forest file available for given sequences!")

/-- The external tools behind the cached stage methods of PipelineContext
(elastix registration and warp application, BET skull-stripping, the medpy,
cmtk and utility interfaces), specified only by their input/output contract:
each maps input file paths to output file paths.  One field per stage method
of PipelineContext; the memoization layer the source puts between the methods
and the tools is modelled separately by `invoke`. -/
structure Adapter where
  resample : String → String
  register : String → String → String × String
  transform : String → String → String
  skullstrip : String → String
  apply_mask : String → String → String
  correct_biasfield : String → String → String
  standardize_intensityrange : String → String → String → String
  extract_features : Dict → String → String
  apply_rdf : String → String → String → String × String

/-- A per-key update loop over a Python dict, the common shape of the
registration loop (pipeline.py:38-40) and the mask-application loop
(pipeline.py:60-61): each listed key is read and its value replaced. -/
def loopUpdate (f : String → String) : List String → Dict → Dict
  | [], d => d
  | k :: ks, d => loopUpdate f ks (dictSet d k (f (dictGet d k)))

/-- The keys iterated by the registration loop:
`sequence_paths.viewkeys() - {fixed_image_key, ADC, DWI}` (taken in dict
order; the Python set has no specified order and the loop effect is
order-independent). -/
def registerKeys (fixedKey : String) (d : Dict) : List String :=
  (dictKeys d).filter (fun k => k != fixedKey && k != ADC && k != DWI)

/-- The registration loop of execute_pipeline (pipeline.py:38-40): every
sequence except the base, DWI and ADC is registered to the resampled base and
its path replaced by the warped image; the transform (second component) is
discarded. -/
def registerStage (A : Adapter) (fixedImage fixedKey : String) (d : Dict) : Dict :=
  loopUpdate (fun p => (A.register p fixedImage).1) (registerKeys fixedKey d) d

/-- The DWI/ADC special case of execute_pipeline (pipeline.py:42-53).  The
Python local `transform` is modelled as an Option: it is bound only inside the
`if DWI` block, so when DWI is absent and ADC is present, evaluating
`transform is not None` raises NameError (UnboundLocalError).  When DWI is
present, the transform output of registration is a file path — never Python
None — so the ADC branch always applies the DWI transform, and the
independent-registration else branch (pipeline.py:52-53, which would also bind
ADC to the (warped, transform) tuple rather than a path) is unreachable.
Returns the updated dict and the stage invocations performed. -/
def dwiAdcStage (A : Adapter) (fixedImage : String) (d : Dict) :
    Except PyErr (Dict × List String) :=
  let s : Dict × Option String × List String :=
    if dictContains d DWI then
      let wt := A.register (dictGet d DWI) fixedImage
      (dictSet d DWI wt.1, some wt.2, ["register " ++ DWI])
    else (d, none, [])
  if dictContains s.1 ADC then
    match s.2.1 with
    | some t =>
      .ok (dictSet s.1 ADC (A.transform (dictGet s.1 ADC) t),
            s.2.2 ++ ["transform " ++ ADC])
    | none => .error (.nameError "transform")
  else .ok (s.1, s.2.2)

/-- The bias-field correction and intensity-range standardization loop
(pipeline.py:64-70): for each key, the path is first replaced by the corrected
image, then — after the per-sequence intensity model lookup, whose failure
aborts the loop — by the standardized image. -/
def standardizeStage (A : Adapter) (ctx : PipelineContext) (fs : FS)
    (mask : String) : List String → Dict → Except PyErr (Dict × List String)
  | [], d => .ok (d, [])
  | k :: ks, d =>
    let d1 := dictSet d k (A.correct_biasfield (dictGet d k) mask)
    match get_intensity_model ctx fs k with
    | .error e => .error e
    | .ok modelFile =>
      match standardizeStage A ctx fs mask ks
          (dictSet d1 k (A.standardize_intensityrange (dictGet d1 k) mask modelFile)) with
      | .error e => .error e
      | .ok (d2, tr) =>
        .ok (d2, ("correct_biasfield " ++ k) ::
          ("standardize_intensityrange " ++ k) :: tr)

/-- The stage sequence of execute_pipeline after context construction
(pipeline.py:33-76): resampling of the registration base, the registration
loop, the DWI/ADC special case, skull-stripping, uniform mask application,
bias-field correction with intensity standardization, feature extraction and
forest classification.  Feature extraction precedes the forest lookup, which
the source evaluates as an argument of the apply_rdf call.  Returns the final
sequence dict, the two classification outputs, and the executed stage trace. -/
def pipelineStages (A : Adapter) (ctx : PipelineContext) (fs : FS) (d0 : Dict) :
    Except PyErr (Dict × String × String × List String) :=
  match get_registration_base ctx (dictKeys d0) with
  | .error e => .error e
  | .ok fixedKey =>
    let fixedImage := A.resample (dictGet d0 fixedKey)
    let d1 := dictSet d0 fixedKey fixedImage
    let d2 := registerStage A fixedImage fixedKey d1
    let tr1 := ("resample " ++ fixedKey) ::
      (registerKeys fixedKey d1).map (fun k => "register " ++ k)
    match dwiAdcStage A fixedImage d2 with
    | .error e => .error e
    | .ok (d3, tr2) =>
      match get_skullstripping_base ctx (dictKeys d3) with
      | .error e => .error e
      | .ok ssKey =>
        let mask := A.skullstrip (dictGet d3 ssKey)
        let d4 := loopUpdate (fun p => A.apply_mask p mask) (dictKeys d3) d3
        let tr3 := ("skullstrip " ++ ssKey) ::
          (dictKeys d3).map (fun k => "apply_mask " ++ k)
        match standardizeStage A ctx fs mask (dictKeys d4) d4 with
        | .error e => .error e
        | .ok (d5, tr4) =>
          let features := A.extract_features d5 mask
          match get_forest ctx d5 with
          | .error e => .error e
          | .ok forestFile =>
            let res := A.apply_rdf forestFile features mask
            .ok (d5, res.1, res.2,
              tr1 ++ tr2 ++ tr3 ++ tr4 ++ ["extract_features", "apply_rdf"])

/-- One iteration of the publication loop (pipeline.py:78-83): any
pre-existing file at out_path is removed, then the result is symlinked there. -/
def publishOne (fs : FS) (path outPath : String) : FS :=
  let fs1 := if isfile fs outPath then removeFile fs outPath else fs
  symlink fs1 path outPath

/-- The heap of Python dict objects: a map from reference to dict. -/
abbrev Heap := List (Nat × Dict)

/-- Dereference a dict on the heap. -/
def heapGet (h : Heap) (r : Nat) : Option Dict := List.lookup r h

/-- Overwrite the dict stored at a reference. -/
def heapSet (h : Heap) (r : Nat) (d : Dict) : Heap :=
  h.map (fun x => if x.1 == r then (r, d) else x)

/-- A reference unused by the given heap. -/
def freshRef (h : Heap) : Nat := (h.map Prod.fst).foldr max 0 + 1

/-- execute_pipeline (pipeline.py:28-83).  Python dicts live on a heap of
references; the caller passes a reference to its sequence_paths dict, and the
first statement (`sequence_paths = copy.copy(sequence_paths)`,
pipeline.py:30) rebinds the local name to a shallow copy at a fresh
reference, through which every later mutation goes.  Returns the final heap,
the file system, the executed-stage trace, and the raised error, if any.  On
a mid-pipeline error the partial updates of the copy — unreachable from the
caller in any case — are not written back; the trace is reported only for
runs whose recorded phases completed, and in particular is empty whenever
context construction fails, since no stage has run at that point. -/
def execute_pipeline (A : Adapter) (cwd : String) (config : Config) (fs : FS)
    (h : Heap) (sequencePathsRef : Nat) : Heap × FS × List String × Option PyErr :=
  match heapGet h sequencePathsRef with
  | none => (h, fs, [], some (.nameError "sequence_paths"))
  | some d0 =>
    let r := freshRef h
    let h1 := h ++ [(r, d0)]
    match contextInit cwd config fs with
    | (fs1, _, .error e) => (h1, fs1, [], some e)
    | (fs1, _, .ok ctx) =>
      match pipelineStages A ctx fs1 d0 with
      | .error e => (h1, fs1, [], some e)
      | .ok (dF, seg, prob, tr) =>
        let h2 := heapSet h1 r dF
        let fs2 := publishOne fs1 seg (pathJoin ctx.outputDir "segmentation.nii.gz")
        let fs3 := publishOne fs2 prob (pathJoin ctx.outputDir "probability.nii.gz")
        (h2, fs3, tr, none)

/-- Modelled from the spec: the Memoized Invoker.  The source delegates
memoization to nipype.caching.Memory (pipeline.py:136 and the `_mem.cache`
wrappers of every stage method, e.g. pipeline.py:300-304), whose
implementation is not part of this repository.  Per the spec, it keys a
durable cache by the operation identity together with the full named
parameter mapping. -/
structure MemoCache where
  entries : List ((String × List (String × String)) × List (String × String))
  deriving DecidableEq

/-- Modelled from the spec: `invoke(operation, parameters)` — on a hit the
recorded outputs are returned without invoking the adapter; on a miss the
adapter runs and the result is stored under the invocation key.  The returned
Bool records whether the external adapter was executed. -/
def invoke (adapter : String → List (String × String) → List (String × String))
    (c : MemoCache) (op : String) (params : List (String × String)) :
    List (String × String) × MemoCache × Bool :=
  match List.lookup (op, params) c.entries with
  | some outs => (outs, c, false)
  | none =>
    let outs := adapter op params
    (outs, ⟨((op, params), outs) :: c.entries⟩, true)

/-- A concrete adapter that tags every operation into the produced path; used
by the concrete evaluation theorems and witnesses. -/
def tagAdapter : Adapter :=
  { resample := fun p => "resample(" ++ p ++ ")",
    register := fun m f => ("warp(" ++ m ++ "," ++ f ++ ")", "tf(" ++ m ++ "," ++ f ++ ")"),
    transform := fun m t => "applytf(" ++ m ++ "," ++ t ++ ")",
    skullstrip := fun p => "mask(" ++ p ++ ")",
    apply_mask := fun p m => "masked(" ++ p ++ "," ++ m ++ ")",
    correct_biasfield := fun p m => "bfc(" ++ p ++ "," ++ m ++ ")",
    standardize_intensityrange := fun p m mo => "std(" ++ p ++ "," ++ m ++ "," ++ mo ++ ")",
    extract_features := fun _ m => "features(" ++ m ++ ")",
    apply_rdf := fun f fd m => ("seg(" ++ f ++ "," ++ fd ++ "," ++ m ++ ")",
      "prob(" ++ f ++ "," ++ fd ++ "," ++ m ++ ")") }

/-- A concrete validated context whose registration base list holds only
t1_sag_tfe; used by the concrete evaluation theorems. -/
def ctxSimple : PipelineContext :=
  { cacheDir := "/cache", outputDir := "/out", pixelSpacing := ["1.0", "1.0", "1.0"],
    elastixParameterFile := "/e.txt", registrationBaseList := ["t1_sag_tfe"],
    skullstrippingBaseList := ["t1_sag_tfe"], intensityModelDir := "/m",
    featureConfigFile := "/f.conf", forestDir := "/forest" }

/-- A concrete context whose registration and skull-stripping candidate lists
differ; exhibits which list the skull-stripping lookup error reports. -/
def ctxTwoLists : PipelineContext :=
  { cacheDir := "/cache", outputDir := "/out", pixelSpacing := ["1.0", "1.0", "1.0"],
    elastixParameterFile := "/e.txt", registrationBaseList := ["t1"],
    skullstrippingBaseList := ["t2"], intensityModelDir := "/m",
    featureConfigFile := "/f.conf", forestDir := "/forest" }

/-- A concrete raw configuration for a complete successful run. -/
def cfgFull : Config :=
  { cacheDir := "/cache", outputDir := "/out", pixelSpacing := "1.0,1.0,1.0",
    elastixParameterFile := "/e.txt", registrationBase := "t1_sag_tfe",
    baseImage := "t1_sag_tfe", modelDir := "/m", featureConfigFile := "/f.conf",
    forestDir := "/forest" }

/-- A concrete file system under which cfgFull validates and every
per-sequence intensity model of dFull exists. -/
def fsFull : FS :=
  { dirs := ["/cache", "/out", "/m", "/forest"],
    files := [("/e.txt", "elastix"), ("/f.conf", "features"),
      ("/m/intensity_model_flair_tra.pkl", "model"),
      ("/m/intensity_model_dw_tra_b1000_dmean.pkl", "model"),
      ("/m/intensity_model_t1_sag_tfe.pkl", "model")] }

/-- The sequence set of the end-to-end scenario. -/
def dFull : Dict :=
  [("flair_tra", "b.img"), ("dw_tra_b1000_dmean", "c.img"), ("t1_sag_tfe", "a.img")]

/-- A one-dict heap holding dFull at reference 0. -/
def heapFull : Heap := [(0, dFull)]

/-- A concrete context with two-element candidate lists, exercising the
priority order of the selection helpers. -/
def ctxPriority : PipelineContext :=
  { cacheDir := "/cache", outputDir := "/out", pixelSpacing := ["1.0", "1.0", "1.0"],
    elastixParameterFile := "/e.txt", registrationBaseList := ["t1", "flair"],
    skullstrippingBaseList := ["t2", "flair"], intensityModelDir := "/m",
    featureConfigFile := "/f.conf", forestDir := "/forest" }

/-- The file system of fsFull with the cache directory missing. -/
def fsPartial : FS := { dirs := ["/out", "/m", "/forest"], files := fsFull.files }

/-! Helper lemmas about the dict model. -/

theorem dictLookup_nil (k : String) : dictLookup [] k = none := rfl

theorem dictLookup_cons (a : String × String) (t : Dict) (k : String) :
    dictLookup (a :: t) k = if k = a.1 then some a.2 else dictLookup t k := by
  by_cases h : k = a.1
  · simp [dictLookup, List.lookup, h]
  · simp [dictLookup, List.lookup, h, beq_eq_false_iff_ne.mpr h]

theorem dictLookup_isSome_iff_mem_keys (d : Dict) (k : String) :
    (dictLookup d k).isSome = true ↔ k ∈ dictKeys d := by
  induction d with
  | nil => simp [dictLookup, List.lookup, dictKeys]
  | cons a t ih =>
    rw [dictLookup_cons]
    by_cases h : k = a.1
    · simp [h, dictKeys]
    · rw [if_neg h, ih]
      simp [dictKeys, h]

theorem dictLookup_append_left (d1 d2 : Dict) (k : String)
    (h : (dictLookup d1 k).isSome) :
    dictLookup (d1 ++ d2) k = dictLookup d1 k := by
  induction d1 with
  | nil => simp [dictLookup, List.lookup] at h
  | cons a t ih =>
    rw [List.cons_append, dictLookup_cons, dictLookup_cons]
    by_cases hk : k = a.1
    · rw [if_pos hk, if_pos hk]
    · rw [dictLookup_cons] at h
      rw [if_neg hk] at h
      rw [if_neg hk, if_neg hk]
      exact ih h

theorem dictLookup_append_right (d1 d2 : Dict) (k : String)
    (h : dictLookup d1 k = none) :
    dictLookup (d1 ++ d2) k = dictLookup d2 k := by
  induction d1 with
  | nil => rfl
  | cons a t ih =>
    rw [dictLookup_cons] at h
    by_cases hk : k = a.1
    · rw [if_pos hk] at h
      exact absurd h (by simp)
    · rw [if_neg hk] at h
      rw [List.cons_append, dictLookup_cons, if_neg hk]
      exact ih h

theorem dictLookup_replace_self (d : Dict) (k v : String)
    (h : (dictLookup d k).isSome) :
    dictLookup (d.map (fun kv => if kv.1 == k then (k, v) else kv)) k = some v := by
  induction d with
  | nil => simp [dictLookup, List.lookup] at h
  | cons a t ih =>
    simp only [beq_iff_eq] at ih ⊢
    rw [List.map_cons, dictLookup_cons]
    by_cases ha : a.1 = k
    · rw [if_pos ha, if_pos rfl]
    · rw [if_neg ha, if_neg (fun hh => ha hh.symm)]
      rw [dictLookup_cons, if_neg (fun hh => ha hh.symm)] at h
      exact ih h

theorem dictLookup_replace_ne (d : Dict) (k v k' : String) (h : k' ≠ k) :
    dictLookup (d.map (fun kv => if kv.1 == k then (k, v) else kv)) k' =
      dictLookup d k' := by
  induction d with
  | nil => rfl
  | cons a t ih =>
    simp only [beq_iff_eq] at ih ⊢
    rw [List.map_cons, dictLookup_cons, dictLookup_cons]
    by_cases ha : a.1 = k
    · rw [if_pos ha, if_neg (show ¬ k' = (k, v).1 from h),
        if_neg (fun hh => h (hh.trans ha)), ih]
    · rw [if_neg ha]
      by_cases hk : k' = a.1
      · rw [if_pos hk, if_pos hk]
      · rw [if_neg hk, if_neg hk, ih]

theorem dictLookup_dictSet_self (d : Dict) (k v : String) :
    dictLookup (dictSet d k v) k = some v := by
  unfold dictSet dictContains
  by_cases h : (dictLookup d k).isSome
  · rw [if_pos h]
    exact dictLookup_replace_self d k v h
  · rw [if_neg h]
    have hn : dictLookup d k = none := by
      rcases ho : dictLookup d k with _ | w
      · rfl
      · rw [ho] at h; simp at h
    rw [dictLookup_append_right d _ k hn, dictLookup_cons]
    simp

theorem dictLookup_dictSet_ne (d : Dict) (k v k' : String) (h : k' ≠ k) :
    dictLookup (dictSet d k v) k' = dictLookup d k' := by
  unfold dictSet dictContains
  by_cases hc : (dictLookup d k).isSome
  · rw [if_pos hc]
    exact dictLookup_replace_ne d k v k' h
  · rw [if_neg hc]
    by_cases h' : (dictLookup d k').isSome
    · exact dictLookup_append_left d _ k' h'
    · have hn : dictLookup d k' = none := by
        rcases ho : dictLookup d k' with _ | w
        · rfl
        · rw [ho] at h'; simp at h'
      rw [dictLookup_append_right d _ k' hn, dictLookup_cons, hn]
      simp only [h, if_false]
      rfl

theorem dictKeys_dictSet (d : Dict) (k v : String)
    (h : (dictLookup d k).isSome) :
    dictKeys (dictSet d k v) = dictKeys d := by
  unfold dictSet dictContains
  rw [if_pos h]
  unfold dictKeys
  rw [List.map_map]
  apply List.map_congr_left
  intro a _
  by_cases ha : a.1 = k
  · simp [Function.comp, ha]
  · simp [Function.comp, ha]

/-! Helper lemmas about the update loop. -/

theorem loopUpdate_lookup (f : String → String) (ks : List String) :
    ∀ (d : Dict), (∀ k ∈ ks, (dictLookup d k).isSome) → ks.Nodup →
    ∀ k', dictLookup (loopUpdate f ks d) k' =
      if k' ∈ ks then some (f (dictGet d k')) else dictLookup d k' := by
  induction ks with
  | nil => intro d _ _ k'; simp [loopUpdate]
  | cons k ks ih =>
    intro d hpres hnd k'
    have hkd : (dictLookup d k).isSome := hpres k (List.mem_cons_self k ks)
    have hknotin : k ∉ ks := (List.nodup_cons.mp hnd).1
    have hndk : ks.Nodup := (List.nodup_cons.mp hnd).2
    have hpres' : ∀ q ∈ ks, (dictLookup (dictSet d k (f (dictGet d k))) q).isSome := by
      intro q hq
      have hqk : q ≠ k := fun hh => hknotin (hh ▸ hq)
      rw [dictLookup_dictSet_ne d k _ q hqk]
      exact hpres q (List.mem_cons_of_mem k hq)
    rw [show loopUpdate f (k :: ks) d =
      loopUpdate f ks (dictSet d k (f (dictGet d k))) from rfl]
    rw [ih (dictSet d k (f (dictGet d k))) hpres' hndk k']
    by_cases hmem : k' ∈ ks
    · rw [if_pos hmem, if_pos (List.mem_cons_of_mem k hmem)]
      have hk'k : k' ≠ k := fun hh => hknotin (hh ▸ hmem)
      rw [show dictGet (dictSet d k (f (dictGet d k))) k' = dictGet d k' by
        unfold dictGet; rw [dictLookup_dictSet_ne d k _ k' hk'k]]
    · rw [if_neg hmem]
      by_cases hk'k : k' = k
      · subst hk'k
        rw [dictLookup_dictSet_self, if_pos (List.mem_cons_self k' ks)]
      · rw [dictLookup_dictSet_ne d k _ k' hk'k,
          if_neg (by simp [hk'k, hmem])]

theorem loopUpdate_keys (f : String → String) (ks : List String) :
    ∀ (d : Dict), (∀ k ∈ ks, (dictLookup d k).isSome) →
    dictKeys (loopUpdate f ks d) = dictKeys d := by
  induction ks with
  | nil => intro d _; rfl
  | cons k ks ih =>
    intro d hpres
    have hkd : (dictLookup d k).isSome := hpres k (List.mem_cons_self k ks)
    have hpres' : ∀ q ∈ ks, (dictLookup (dictSet d k (f (dictGet d k))) q).isSome := by
      intro q hq
      by_cases hqk : q = k
      · subst hqk; rw [dictLookup_dictSet_self]; rfl
      · rw [dictLookup_dictSet_ne d k _ q hqk]
        exact hpres q (List.mem_cons_of_mem k hq)
    rw [show loopUpdate f (k :: ks) d =
      loopUpdate f ks (dictSet d k (f (dictGet d k))) from rfl]
    rw [ih (dictSet d k (f (dictGet d k))) hpres', dictKeys_dictSet d k _ hkd]

/-! Helper lemmas about the candidate scan. -/

theorem scanList_some_iff (seqs : List String) :
    ∀ (cands : List String) (s : String),
    scanList cands seqs = some s ↔
      ∃ pre post, cands = pre ++ s :: post ∧ seqs.contains s = true ∧
        ∀ c ∈ pre, seqs.contains c = false := by
  intro cands
  induction cands with
  | nil =>
    intro s
    constructor
    · intro h; exact absurd h (by simp [scanList])
    · rintro ⟨pre, post, hc, -, -⟩
      exact absurd hc (by simp)
  | cons a rest ih =>
    intro s
    constructor
    · intro h
      unfold scanList at h
      by_cases ha : seqs.contains a
      · rw [if_pos ha] at h
        injection h with h1
        subst h1
        exact ⟨[], rest, rfl, ha, by intro c hc; exact absurd hc (by simp)⟩
      · rw [if_neg ha] at h
        rcases (ih s).mp h with ⟨pre, post, hc, hs, hpre⟩
        refine ⟨a :: pre, post, by rw [hc]; rfl, hs, ?_⟩
        intro c hc'
        rcases List.mem_cons.mp hc' with hh | hh
        · subst hh
          simpa using ha
        · exact hpre c hh
    · rintro ⟨pre, post, hc, hs, hpre⟩
      rcases pre with _ | ⟨p, pre'⟩
      · simp only [List.nil_append] at hc
        injection hc with h1 h2
        subst h1; subst h2
        unfold scanList
        rw [if_pos hs]
      · injection hc with h1 h2
        subst h1
        have hpa : seqs.contains a = false := hpre a (List.mem_cons_self a pre')
        unfold scanList
        rw [if_neg (show ¬ seqs.contains a = true by rw [hpa]; simp)]
        exact (ih s).mpr ⟨pre', post, h2, hs, fun c hc' =>
          hpre c (List.mem_cons_of_mem a hc')⟩

theorem scanList_none_iff (seqs : List String) :
    ∀ (cands : List String),
    scanList cands seqs = none ↔ ∀ c ∈ cands, seqs.contains c = false := by
  intro cands
  induction cands with
  | nil => simp [scanList]
  | cons a rest ih =>
    unfold scanList
    by_cases ha : seqs.contains a
    · rw [if_pos ha]
      constructor
      · intro h; exact absurd h (by simp)
      · intro h
        have hfa := h a (List.mem_cons_self a rest)
        rw [ha] at hfa
        exact Bool.noConfusion hfa
    · rw [if_neg ha, ih]
      constructor
      · intro h c hc
        rcases List.mem_cons.mp hc with hh | hh
        · subst hh
          simpa using ha
        · exact h c hh
      · intro h c hc
        exact h c (List.mem_cons_of_mem a hc)

/-! Helper lemmas about the heap of dict objects. -/

theorem heapGet_cons (a : Nat × Dict) (t : Heap) (r : Nat) :
    heapGet (a :: t) r = if r = a.1 then some a.2 else heapGet t r := by
  by_cases h : r = a.1
  · simp [heapGet, List.lookup, h]
  · simp [heapGet, List.lookup, h, Nat.beq_eq_true_eq, beq_eq_false_iff_ne.mpr h]

theorem heapGet_append_left (h1 h2 : Heap) (r : Nat)
    (h : (heapGet h1 r).isSome) :
    heapGet (h1 ++ h2) r = heapGet h1 r := by
  induction h1 with
  | nil => simp [heapGet, List.lookup] at h
  | cons a t ih =>
    rw [List.cons_append, heapGet_cons, heapGet_cons]
    by_cases hr : r = a.1
    · rw [if_pos hr, if_pos hr]
    · rw [heapGet_cons, if_neg hr] at h
      rw [if_neg hr, if_neg hr]
      exact ih h

theorem heapGet_heapSet_ne (h : Heap) (r : Nat) (d : Dict) (r' : Nat)
    (hne : r' ≠ r) : heapGet (heapSet h r d) r' = heapGet h r' := by
  induction h with
  | nil => rfl
  | cons a t ih =>
    unfold heapSet at ih ⊢
    rw [List.map_cons]
    by_cases ha : a.1 = r
    · rw [if_pos (by simpa using ha), heapGet_cons, heapGet_cons,
        if_neg (show ¬ r' = (r, d).1 from hne), if_neg (fun hh => hne (hh.trans ha)), ih]
    · rw [if_neg (by simpa using ha), heapGet_cons, heapGet_cons]
      by_cases hr : r' = a.1
      · rw [if_pos hr, if_pos hr]
      · rw [if_neg hr, if_neg hr, ih]

theorem mem_le_foldr_max (l : List Nat) (a : Nat) (h : a ∈ l) :
    a ≤ l.foldr max 0 := by
  induction l with
  | nil => exact absurd h (List.not_mem_nil a)
  | cons b t ih =>
    rcases List.mem_cons.mp h with hh | hh
    · subst hh
      exact le_max_left _ _
    · exact le_trans (ih hh) (le_max_right _ _)

theorem freshRef_not_mem (h : Heap) (r : Nat) (hr : r ∈ h.map Prod.fst) :
    r ≠ freshRef h := by
  intro he
  have := mem_le_foldr_max (h.map Prod.fst) r hr
  rw [he] at this
  unfold freshRef at this
  omega

theorem heapGet_isSome_mem (h : Heap) (r : Nat)
    (hs : (heapGet h r).isSome) : r ∈ h.map Prod.fst := by
  induction h with
  | nil => simp [heapGet, List.lookup] at hs
  | cons a t ih =>
    rw [heapGet_cons] at hs
    by_cases hr : r = a.1
    · rw [List.map_cons]
      exact hr ▸ List.mem_cons_self a.1 (t.map Prod.fst)
    · rw [if_neg hr] at hs
      exact List.mem_cons_of_mem _ (ih hs)

/-! Helper lemmas about publication and the file system. -/

theorem fsFileLookup_eq (fs : FS) (p : String) :
    fsFileLookup fs p = dictLookup fs.files p := rfl

theorem dictLookup_filter_ne (l : List (String × String)) (p q : String)
    (h : q ≠ p) :
    dictLookup (l.filter (fun kv => kv.1 != p)) q = dictLookup l q := by
  induction l with
  | nil => rfl
  | cons a t ih =>
    rw [List.filter_cons]
    by_cases ha : a.1 = p
    · rw [if_neg (by simp [ha]), dictLookup_cons,
        if_neg (fun hh => h (hh.trans ha))]
      exact ih
    · rw [if_pos (by simp [ha]), dictLookup_cons, dictLookup_cons]
      by_cases hq : q = a.1
      · rw [if_pos hq, if_pos hq]
      · rw [if_neg hq, if_neg hq]
        exact ih

theorem publishOne_files (fs : FS) (path outPath : String) :
    (publishOne fs path outPath).files =
      (outPath, path) ::
        (if isfile fs outPath then (removeFile fs outPath).files else fs.files) := by
  simp only [publishOne, symlink]
  by_cases h : isfile fs outPath
  · rw [if_pos h, if_pos h]
  · rw [if_neg h, if_neg h]

theorem fsFileLookup_publishOne_self (fs : FS) (path outPath : String) :
    fsFileLookup (publishOne fs path outPath) outPath = some path := by
  rw [fsFileLookup_eq, publishOne_files, dictLookup_cons, if_pos rfl]

theorem fsFileLookup_publishOne_ne (fs : FS) (path outPath q : String)
    (h : q ≠ outPath) :
    fsFileLookup (publishOne fs path outPath) q = fsFileLookup fs q := by
  rw [fsFileLookup_eq, publishOne_files, dictLookup_cons, if_neg h]
  by_cases hf : isfile fs outPath
  · rw [if_pos hf]
    rw [show (removeFile fs outPath).files
      = fs.files.filter (fun kv => kv.1 != outPath) from rfl]
    rw [dictLookup_filter_ne fs.files outPath q h]
    rfl
  · rw [if_neg hf]
    rfl

/-! Helper lemmas about configuration validation. -/

theorem check_configured_directory_files (cwd : String) (fs : FS) (p nm : String) :
    (check_configured_directory cwd fs p nm).1.files = fs.files := by
  unfold check_configured_directory makedirs
  by_cases h : isdir fs (abspath cwd p)
  · rw [if_pos h]
  · rw [if_neg h]

theorem isfile_check_configured_directory (cwd : String) (fs : FS)
    (p nm q : String) :
    isfile (check_configured_directory cwd fs p nm).1 q = isfile fs q := by
  unfold isfile
  rw [check_configured_directory_files]

theorem check_configured_directory_path (cwd : String) (fs : FS) (p nm : String) :
    (check_configured_directory cwd fs p nm).2.1 = abspath cwd p := by
  unfold check_configured_directory
  by_cases h : isdir fs (abspath cwd p)
  · rw [if_pos h]
  · rw [if_neg h]

theorem check_configured_directory_warning (cwd : String) (fs : FS) (p nm : String) :
    (check_configured_directory cwd fs p nm).2.2 =
      if isdir fs (abspath cwd p) then none
      else some (dirWarning nm (abspath cwd p)) := by
  unfold check_configured_directory
  by_cases h : isdir fs (abspath cwd p)
  · rw [if_pos h, if_pos h]
  · rw [if_neg h, if_neg h]

theorem isdir_check_configured_directory_self (cwd : String) (fs : FS)
    (p nm : String) :
    isdir (check_configured_directory cwd fs p nm).1 (abspath cwd p) = true := by
  unfold check_configured_directory
  by_cases h : isdir fs (abspath cwd p)
  · rw [if_pos h]; exact h
  · rw [if_neg h]
    unfold makedirs isdir
    simp [List.contains_cons]

theorem isdir_check_configured_directory_mono (cwd : String) (fs : FS)
    (p nm q : String) (h : isdir fs q = true) :
    isdir (check_configured_directory cwd fs p nm).1 q = true := by
  unfold check_configured_directory
  by_cases hd : isdir fs (abspath cwd p)
  · rw [if_pos hd]; exact h
  · rw [if_neg hd]
    unfold makedirs isdir
    unfold isdir at h
    simp only [List.contains_cons, h, Bool.or_true]

theorem isdir_check_configured_directory_ne (cwd : String) (fs : FS)
    (p nm q : String) (h : q ≠ abspath cwd p) :
    isdir (check_configured_directory cwd fs p nm).1 q = isdir fs q := by
  unfold check_configured_directory
  by_cases hd : isdir fs (abspath cwd p)
  · rw [if_pos hd]
  · rw [if_neg hd]
    unfold makedirs isdir
    simp only [List.contains_cons, beq_eq_false_iff_ne.mpr h, Bool.false_or]

theorem check_configured_file_ok (cwd : String) (fs : FS) (p nm : String)
    (h : isfile fs (abspath cwd p) = true) :
    check_configured_file cwd fs p nm = Except.ok (abspath cwd p) := by
  unfold check_configured_file
  rw [if_pos h]

theorem check_configured_file_error (cwd : String) (fs : FS) (p nm : String)
    (h : isfile fs (abspath cwd p) = false) :
    check_configured_file cwd fs p nm = Except.error (.valueError
      ("The configured " ++ nm ++ " " ++ abspath cwd p ++ " does not exist!")) := by
  unfold check_configured_file
  rw [if_neg (by rw [h]; simp)]

theorem contextInit_ok_eq (cwd : String) (cfg : Config) (fs : FS)
    (sp : List String)
    (hps : parsePixelSpacing cfg.pixelSpacing = some sp)
    (he : isfile fs (abspath cwd cfg.elastixParameterFile) = true)
    (hf : isfile fs (abspath cwd cfg.featureConfigFile) = true) :
    contextInit cwd cfg fs =
      ((check_configured_directory cwd
          (check_configured_directory cwd
            (check_configured_directory cwd
              (check_configured_directory cwd fs cfg.cacheDir
                "cache directory").1 cfg.outputDir "output directory").1
            cfg.modelDir "intensity model directory").1 cfg.forestDir
          "classification forest directory").1,
        (check_configured_directory cwd fs cfg.cacheDir
            "cache directory").2.2.toList ++
          (check_configured_directory cwd
            (check_configured_directory cwd fs cfg.cacheDir
              "cache directory").1 cfg.outputDir "output directory").2.2.toList ++
          (check_configured_directory cwd
            (check_configured_directory cwd
              (check_configured_directory cwd fs cfg.cacheDir
                "cache directory").1 cfg.outputDir "output directory").1
            cfg.modelDir "intensity model directory").2.2.toList ++
          (check_configured_directory cwd
            (check_configured_directory cwd
              (check_configured_directory cwd
                (check_configured_directory cwd fs cfg.cacheDir
                  "cache directory").1 cfg.outputDir "output directory").1
              cfg.modelDir "intensity model directory").1 cfg.forestDir
            "classification forest directory").2.2.toList,
        Except.ok
          { cacheDir := (check_configured_directory cwd fs cfg.cacheDir
              "cache directory").2.1,
            outputDir := (check_configured_directory cwd
              (check_configured_directory cwd fs cfg.cacheDir
                "cache directory").1 cfg.outputDir "output directory").2.1,
            pixelSpacing := sp,
            elastixParameterFile := abspath cwd cfg.elastixParameterFile,
            registrationBaseList := splitStrip cfg.registrationBase,
            skullstrippingBaseList := splitStrip cfg.baseImage,
            intensityModelDir := (check_configured_directory cwd
              (check_configured_directory cwd
                (check_configured_directory cwd fs cfg.cacheDir
                  "cache directory").1 cfg.outputDir "output directory").1
              cfg.modelDir "intensity model directory").2.1,
            featureConfigFile := abspath cwd cfg.featureConfigFile,
            forestDir := (check_configured_directory cwd
              (check_configured_directory cwd
                (check_configured_directory cwd
                  (check_configured_directory cwd fs cfg.cacheDir
                    "cache directory").1 cfg.outputDir "output directory").1
                cfg.modelDir "intensity model directory").1 cfg.forestDir
              "classification forest directory").2.1 }) := by
  have he2 : isfile (check_configured_directory cwd
      (check_configured_directory cwd fs cfg.cacheDir "cache directory").1
      cfg.outputDir "output directory").1
      (abspath cwd cfg.elastixParameterFile) = true := by
    rw [isfile_check_configured_directory, isfile_check_configured_directory]
    exact he
  have hf2 : isfile (check_configured_directory cwd
      (check_configured_directory cwd
        (check_configured_directory cwd fs cfg.cacheDir "cache directory").1
        cfg.outputDir "output directory").1
      cfg.modelDir "intensity model directory").1
      (abspath cwd cfg.featureConfigFile) = true := by
    rw [isfile_check_configured_directory, isfile_check_configured_directory,
      isfile_check_configured_directory]
    exact hf
  simp only [contextInit, hps, check_configured_file_ok _ _ _ _ he2,
    check_configured_file_ok _ _ _ _ hf2, List.append_assoc]

theorem contextInit_files (cwd : String) (cfg : Config) (fs : FS) :
    (contextInit cwd cfg fs).1.files = fs.files := by
  simp only [contextInit]
  split
  · simp only [check_configured_directory_files]
  · split
    · simp only [check_configured_directory_files]
    · split
      · simp only [check_configured_directory_files]
      · simp only [check_configured_directory_files]

/-! Helper lemmas about paths. -/

theorem strAppend_cancel_left (a b c : String) (h : a ++ b = a ++ c) : b = c := by
  have hd := congrArg String.data h
  rw [String.data_append, String.data_append] at hd
  exact String.ext (List.append_cancel_left hd)

theorem pathJoin_seg_ne_prob (dir : String) :
    pathJoin dir "segmentation.nii.gz" ≠ pathJoin dir "probability.nii.gz" := by
  unfold pathJoin
  rw [if_neg (show ¬(strStartsWithSlash "segmentation.nii.gz" = true) by decide),
    if_neg (show ¬(strStartsWithSlash "probability.nii.gz" = true) by decide)]
  by_cases h : (dir == "" || strEndsWithSlash dir) = true
  · rw [if_pos h, if_pos h]
    intro he
    exact absurd (strAppend_cancel_left dir _ _ he) (by decide)
  · rw [if_neg h, if_neg h]
    intro he
    have h2 := strAppend_cancel_left (dir ++ "/") _ _ he
    exact absurd h2 (by decide)

/-! Bridging lemmas between the selection helpers and the candidate scan. -/

theorem get_registration_base_ok_iff (ctx : PipelineContext) (seqs : List String)
    (s : String) :
    get_registration_base ctx seqs = Except.ok s ↔
      scanList ctx.registrationBaseList seqs = some s := by
  unfold get_registration_base
  rcases hs : scanList ctx.registrationBaseList seqs with _ | w
  · simp
  · simp

theorem get_registration_base_error_iff (ctx : PipelineContext)
    (seqs : List String) :
    (∃ e, get_registration_base ctx seqs = Except.error e) ↔
      scanList ctx.registrationBaseList seqs = none := by
  unfold get_registration_base
  rcases hs : scanList ctx.registrationBaseList seqs with _ | w
  · constructor
    · intro _; rfl
    · intro _; exact ⟨_, rfl⟩
  · constructor
    · rintro ⟨e, he⟩
      exact absurd he (by simp)
    · intro hh
      exact absurd hh (by simp)

theorem get_skullstripping_base_ok_iff (ctx : PipelineContext)
    (seqs : List String) (s : String) :
    get_skullstripping_base ctx seqs = Except.ok s ↔
      scanList ctx.skullstrippingBaseList seqs = some s := by
  unfold get_skullstripping_base
  rcases hs : scanList ctx.skullstrippingBaseList seqs with _ | w
  · simp
  · simp

theorem get_skullstripping_base_error_iff (ctx : PipelineContext)
    (seqs : List String) :
    (∃ e, get_skullstripping_base ctx seqs = Except.error e) ↔
      scanList ctx.skullstrippingBaseList seqs = none := by
  unfold get_skullstripping_base
  rcases hs : scanList ctx.skullstrippingBaseList seqs with _ | w
  · constructor
    · intro _; rfl
    · intro _; exact ⟨_, rfl⟩
  · constructor
    · rintro ⟨e, he⟩
      exact absurd he (by simp)
    · intro hh
      exact absurd hh (by simp)

theorem setEq_iff (xs ys : List String) :
    setEq xs ys = true ↔ ∀ k, k ∈ xs ↔ k ∈ ys := by
  unfold setEq
  rw [Bool.and_eq_true, List.all_eq_true, List.all_eq_true]
  constructor
  · rintro ⟨h1, h2⟩ k
    constructor
    · intro hk
      exact List.elem_iff.mp (h1 k hk)
    · intro hk
      exact List.elem_iff.mp (h2 k hk)
  · intro h
    exact ⟨fun x hx => List.elem_iff.mpr ((h x).mp hx),
      fun y hy => List.elem_iff.mpr ((h y).mpr hy)⟩

/-! The claims. -/

/-- C2: for every candidate list and every available-sequence set,
get_registration_base and get_skullstripping_base return the first candidate
of the configured list, in configured order, that is present in the available
set — never a later match — and raise an error when no candidate is
present. -/
theorem get_bases_first_match (ctx : PipelineContext) (seqs : List String) :
    (∀ s, get_registration_base ctx seqs = Except.ok s ↔
      ∃ pre post, ctx.registrationBaseList = pre ++ s :: post ∧
        seqs.contains s = true ∧ ∀ c ∈ pre, seqs.contains c = false) ∧
    ((∃ e, get_registration_base ctx seqs = Except.error e) ↔
      ∀ c ∈ ctx.registrationBaseList, seqs.contains c = false) ∧
    (∀ s, get_skullstripping_base ctx seqs = Except.ok s ↔
      ∃ pre post, ctx.skullstrippingBaseList = pre ++ s :: post ∧
        seqs.contains s = true ∧ ∀ c ∈ pre, seqs.contains c = false) ∧
    ((∃ e, get_skullstripping_base ctx seqs = Except.error e) ↔
      ∀ c ∈ ctx.skullstrippingBaseList, seqs.contains c = false) := by
  refine ⟨?_, ?_, ?_, ?_⟩
  · intro s
    rw [get_registration_base_ok_iff, scanList_some_iff]
  · rw [get_registration_base_error_iff, scanList_none_iff]
  · intro s
    rw [get_skullstripping_base_ok_iff, scanList_some_iff]
  · rw [get_skullstripping_base_error_iff, scanList_none_iff]

/-- Witness for C2: with registration candidates [t1, flair] and available
sequences [flair, t1], the first configured candidate t1 wins even though
flair is also present; with skull-stripping candidates [t2, flair] and only
flair available, the scan skips the absent first candidate. -/
theorem get_bases_first_match_witness :
    get_registration_base ctxPriority ["flair", "t1"] = Except.ok "t1" ∧
    get_skullstripping_base ctxPriority ["flair", "t1"] = Except.ok "flair" := by
  constructor
  · exact ((get_bases_first_match ctxPriority ["flair", "t1"]).1 "t1").mpr
      ⟨[], ["flair"], rfl, by decide, by intro c hc; exact absurd hc (by simp)⟩
  · exact ((get_bases_first_match ctxPriority ["flair", "t1"]).2.2.1 "flair").mpr
      ⟨["t2"], [], rfl, by decide, by
        intro c hc
        rcases List.mem_cons.mp hc with hh | hh
        · subst hh; decide
        · exact absurd hh (by simp)⟩

/-- C4: get_forest succeeds with the one configured forest path exactly when
the sequence set identifiers equal {flair_tra, dw_tra_b1000_dmean, t1_sag_tfe}
as a set; every other identifier combination (subsets and supersets included)
raises a lookup error. -/
theorem get_forest_exact_combination (ctx : PipelineContext) (d : Dict) :
    ((∀ k, k ∈ dictKeys d ↔ k ∈ forestCombination) →
      get_forest ctx d = Except.ok (pathJoin ctx.forestDir "forest.pklz")) ∧
    ((¬ ∀ k, k ∈ dictKeys d ↔ k ∈ forestCombination) →
      get_forest ctx d =
        Except.error (.valueError "No forest file available for given sequences!")) := by
  constructor
  · intro h
    unfold get_forest
    rw [if_pos ((setEq_iff _ _).mpr h)]
  · intro h
    unfold get_forest
    rw [if_neg (fun hc => h ((setEq_iff _ _).mp hc))]

/-- Witness for C4: the exact combination succeeds; a strict subset fails. -/
theorem get_forest_exact_combination_witness :
    get_forest ctxSimple dFull = Except.ok (pathJoin ctxSimple.forestDir "forest.pklz") ∧
    get_forest ctxSimple [("flair_tra", "b.img")] =
      Except.error (.valueError "No forest file available for given sequences!") := by
  constructor
  · exact (get_forest_exact_combination ctxSimple dFull).1 (fun k => Iff.rfl)
  · exact (get_forest_exact_combination ctxSimple [("flair_tra", "b.img")]).2
      (fun hall => by
        have h2 := (hall "t1_sag_tfe").mpr (by simp [forestCombination])
        simp [dictKeys] at h2)

/-- C9: get_intensity_model returns exactly the path
<model_dir>/intensity_model_<s>.pkl when that file exists, and raises a lookup
error naming that expected path when it does not; the construction is a
function of the sequence id and the configured model directory. -/
theorem get_intensity_model_path (ctx : PipelineContext) (fs : FS) (s : String) :
    (isfile fs (pathJoin ctx.intensityModelDir
        ("intensity_model_" ++ s ++ ".pkl")) = true →
      get_intensity_model ctx fs s = Except.ok
        (pathJoin ctx.intensityModelDir ("intensity_model_" ++ s ++ ".pkl"))) ∧
    (isfile fs (pathJoin ctx.intensityModelDir
        ("intensity_model_" ++ s ++ ".pkl")) = false →
      get_intensity_model ctx fs s = Except.error (.valueError
        ("No intensity model found; model file was" ++ "expected at " ++
          pathJoin ctx.intensityModelDir ("intensity_model_" ++ s ++ ".pkl")))) := by
  constructor
  · intro h
    unfold get_intensity_model
    rw [if_pos h]
  · intro h
    unfold get_intensity_model
    rw [if_neg (by rw [h]; simp)]

/-- Witness for C9: under fsFull the flair_tra model resolves to its
conventional path, and a sequence without a model file raises the error
naming the expected path. -/
theorem get_intensity_model_path_witness :
    get_intensity_model ctxSimple fsFull "flair_tra" =
      Except.ok (pathJoin "/m" ("intensity_model_" ++ "flair_tra" ++ ".pkl")) ∧
    get_intensity_model ctxSimple fsFull "t2" =
      Except.error (.valueError
        ("No intensity model found; model file was" ++ "expected at " ++
          pathJoin "/m" ("intensity_model_" ++ "t2" ++ ".pkl"))) := by
  constructor
  · exact (get_intensity_model_path ctxSimple fsFull "flair_tra").1 (by decide)
  · exact (get_intensity_model_path ctxSimple fsFull "t2").2 (by decide)

/-- C6 (code defect): when get_skullstripping_base finds no match, the raised
RuntimeError interpolates the configured registration-base candidate list,
not the skull-stripping candidate list that was scanned: with registration
list [t1] and skull-stripping list [t2], the message embeds [t1], and differs
from the message that would report the scanned list [t2]. -/
theorem get_skullstripping_base_error_reports_registration_list :
    get_skullstripping_base ctxTwoLists ["flair"] = Except.error (.runtimeError
      ("None of the configured skullstripping base" ++ "sequences " ++
        pyRepr ctxTwoLists.registrationBaseList ++ " is present!")) ∧
    ("None of the configured skullstripping base" ++ "sequences " ++
        pyRepr ctxTwoLists.registrationBaseList ++ " is present!") ≠
      ("None of the configured skullstripping base" ++ "sequences " ++
        pyRepr ctxTwoLists.skullstrippingBaseList ++ " is present!") := by
  constructor
  · rfl
  · decide

/-- C3 (modelled from the spec): invoking the Memoized Invoker twice with an
identical operation and identical parameter mapping executes the external
operation at most once; both invocations return identical outputs, and the
second is answered from the cache without executing the adapter. -/
theorem invoke_idempotent_cached
    (adapter : String → List (String × String) → List (String × String))
    (c : MemoCache) (op : String) (params : List (String × String)) :
    (invoke adapter (invoke adapter c op params).2.1 op params).1 =
      (invoke adapter c op params).1 ∧
    (invoke adapter (invoke adapter c op params).2.1 op params).2.2 = false ∧
    (if (invoke adapter c op params).2.2 then 1 else 0) +
      (if (invoke adapter (invoke adapter c op params).2.1 op params).2.2
        then 1 else 0) ≤ 1 := by
  unfold invoke
  rcases h : List.lookup (op, params) c.entries with _ | outs
  · have h2 : List.lookup (op, params)
        (MemoCache.mk (((op, params), adapter op params) :: c.entries)).entries =
        some (adapter op params) := by
      simp [List.lookup]
    simp only [h, h2]
    simp
  · simp only [h]
    simp

/-- C8: in the registration step, every sequence in the set except the
registration base, DWI and ADC is registered to the resampled base and its
entry replaced by the warped output, the produced transform being discarded;
the base, DWI and ADC entries are untouched by this step, and the key set is
unchanged. -/
theorem registerStage_spec (A : Adapter) (fixedImage fixedKey : String)
    (d : Dict) (hnd : (dictKeys d).Nodup) :
    (∀ k, k ∈ dictKeys d → k ≠ fixedKey → k ≠ ADC → k ≠ DWI →
      dictLookup (registerStage A fixedImage fixedKey d) k =
        some ((A.register (dictGet d k) fixedImage).1)) ∧
    (∀ k, k = fixedKey ∨ k = ADC ∨ k = DWI →
      dictLookup (registerStage A fixedImage fixedKey d) k = dictLookup d k) ∧
    dictKeys (registerStage A fixedImage fixedKey d) = dictKeys d := by
  have hpres : ∀ k ∈ registerKeys fixedKey d, (dictLookup d k).isSome := by
    intro k hk
    unfold registerKeys at hk
    exact (dictLookup_isSome_iff_mem_keys d k).mpr (List.mem_filter.mp hk).1
  have hndk : (registerKeys fixedKey d).Nodup := by
    unfold registerKeys
    exact hnd.filter _
  refine ⟨?_, ?_, ?_⟩
  · intro k hk h1 h2 h3
    have hmem : k ∈ registerKeys fixedKey d := by
      unfold registerKeys
      refine List.mem_filter.mpr ⟨hk, ?_⟩
      simp [bne, h1, h2, h3]
    unfold registerStage
    rw [loopUpdate_lookup _ _ d hpres hndk k, if_pos hmem]
  · intro k hk
    have hmem : k ∉ registerKeys fixedKey d := by
      intro hmem
      unfold registerKeys at hmem
      have hcond := (List.mem_filter.mp hmem).2
      rcases hk with h | h | h <;> subst h <;> simp [bne] at hcond
    unfold registerStage
    rw [loopUpdate_lookup _ _ d hpres hndk k, if_neg hmem]
  · unfold registerStage
    exact loopUpdate_keys _ _ d hpres

/-- Witness for C8: in a set holding the base, a DWI, an ADC and a flair
sequence, the step warps flair against the fixed image and leaves the other
three entries as they were. -/
theorem registerStage_spec_witness :
    dictLookup (registerStage tagAdapter "F" "t1_sag_tfe"
        [("t1_sag_tfe", "a"), ("dwi", "b"), ("adc", "c"), ("flair", "e")]) "flair" =
      some ((tagAdapter.register
        (dictGet [("t1_sag_tfe", "a"), ("dwi", "b"), ("adc", "c"), ("flair", "e")]
          "flair") "F").1) ∧
    dictLookup (registerStage tagAdapter "F" "t1_sag_tfe"
        [("t1_sag_tfe", "a"), ("dwi", "b"), ("adc", "c"), ("flair", "e")]) "adc" =
      dictLookup [("t1_sag_tfe", "a"), ("dwi", "b"), ("adc", "c"), ("flair", "e")]
        "adc" := by
  constructor
  · exact (registerStage_spec tagAdapter "F" "t1_sag_tfe" _ (by decide)).1 "flair"
      (by decide) (by decide) (by decide) (by decide)
  · exact (registerStage_spec tagAdapter "F" "t1_sag_tfe" _ (by decide)).2.1 "adc"
      (Or.inr (Or.inl rfl))

/-- C1 (code defect): for a sequence set containing ADC but no DWI, the
DWI/ADC special case of the driver raises NameError at the evaluation of
`transform is not None` — the local `transform` is bound only inside the `if
DWI` block — instead of registering ADC independently to the resampled base;
when DWI is present the DWI transform is applied to ADC and no independent
ADC registration happens. -/
theorem dwi_absent_adc_raises_nameError :
    pipelineStages tagAdapter ctxSimple fsFull
      [("t1_sag_tfe", "a.nii"), ("adc", "b.nii")] =
      Except.error (.nameError "transform") := by rfl

/-- C10: execute_pipeline never mutates the caller-visible sequence-path
mapping: the driver rebinds its local name to a shallow copy at entry and all
later updates go through the copy, so the dict at the caller-held reference
holds the same bindings after the run, successful or failed. -/
theorem execute_pipeline_preserves_caller (A : Adapter) (cwd : String)
    (cfg : Config) (fs : FS) (h : Heap) (r : Nat)
    (hs : (heapGet h r).isSome = true) :
    heapGet (execute_pipeline A cwd cfg fs h r).1 r = heapGet h r := by
  rcases hg : heapGet h r with _ | d0
  · rw [hg] at hs
    exact absurd hs (by simp)
  · have hsome : (heapGet h r).isSome = true := by rw [hg]; rfl
    have happ : heapGet (h ++ [(freshRef h, d0)]) r = heapGet h r :=
      heapGet_append_left h _ r hsome
    have hrne : r ≠ freshRef h :=
      freshRef_not_mem h r (heapGet_isSome_mem h r hsome)
    rcases hinit : contextInit cwd cfg fs with ⟨fs1, ws, ce⟩
    cases ce with
    | error e =>
      simp only [execute_pipeline, hg, hinit]
      rw [happ, hg]
    | ok ctx =>
      rcases hst : pipelineStages A ctx fs1 d0 with e | ⟨dF, seg, prob, tr⟩
      · simp only [execute_pipeline, hg, hinit, hst]
        rw [happ, hg]
      · simp only [execute_pipeline, hg, hinit, hst]
        rw [heapGet_heapSet_ne _ _ _ _ hrne, happ, hg]

/-- Witness for C10: after the successful end-to-end run, the dict the caller
holds at reference 0 is unchanged. -/
theorem execute_pipeline_preserves_caller_witness :
    heapGet (execute_pipeline tagAdapter "/c" cfgFull fsFull heapFull 0).1 0 =
      heapGet heapFull 0 :=
  execute_pipeline_preserves_caller tagAdapter "/c" cfgFull fsFull heapFull 0
    (by decide)

/-- C7: publication is all-or-nothing per file: on success each of the two
well-known output locations holds a reference to the corresponding new
result, replacing any pre-existing file at that location; any fatal error at
an earlier step aborts the run with the recorded files untouched, so no
output file is published. -/
theorem publication_all_or_nothing (A : Adapter) (cwd : String) (cfg : Config)
    (fs : FS) (h : Heap) (r : Nat) :
    ((execute_pipeline A cwd cfg fs h r).2.2.2.isSome = true →
      (execute_pipeline A cwd cfg fs h r).2.1.files = fs.files) ∧
    ((execute_pipeline A cwd cfg fs h r).2.2.2 = none →
      ∃ d0 fs1 ws ctx dF seg prob tr,
        heapGet h r = some d0 ∧
        contextInit cwd cfg fs = (fs1, ws, Except.ok ctx) ∧
        pipelineStages A ctx fs1 d0 = Except.ok (dF, seg, prob, tr) ∧
        fsFileLookup (execute_pipeline A cwd cfg fs h r).2.1
          (pathJoin ctx.outputDir "segmentation.nii.gz") = some seg ∧
        fsFileLookup (execute_pipeline A cwd cfg fs h r).2.1
          (pathJoin ctx.outputDir "probability.nii.gz") = some prob) := by
  have hif := contextInit_files cwd cfg fs
  rcases hg : heapGet h r with _ | d0
  · constructor
    · intro _
      simp only [execute_pipeline, hg]
    · intro hc
      simp [execute_pipeline, hg] at hc
  · rcases hinit : contextInit cwd cfg fs with ⟨fs1, ws, ce⟩
    have hfs1 : fs1.files = fs.files := by
      rw [hinit] at hif
      exact hif
    cases ce with
    | error e =>
      constructor
      · intro _
        simp only [execute_pipeline, hg, hinit]
        exact hfs1
      · intro hc
        simp [execute_pipeline, hg, hinit] at hc
    | ok ctx =>
      rcases hst : pipelineStages A ctx fs1 d0 with e | ⟨dF, seg, prob, tr⟩
      · constructor
        · intro _
          simp only [execute_pipeline, hg, hinit, hst]
          exact hfs1
        · intro hc
          simp [execute_pipeline, hg, hinit, hst] at hc
      · constructor
        · intro hc
          simp [execute_pipeline, hg, hinit, hst] at hc
        · intro _
          refine ⟨d0, fs1, ws, ctx, dF, seg, prob, tr, rfl, rfl, hst, ?_, ?_⟩
          · simp only [execute_pipeline, hg, hinit, hst]
            rw [fsFileLookup_publishOne_ne _ _ _ _
              (pathJoin_seg_ne_prob ctx.outputDir), fsFileLookup_publishOne_self]
          · simp only [execute_pipeline, hg, hinit, hst]
            rw [fsFileLookup_publishOne_self]

/-- C5: at Context construction, a configured directory (cache, output,
intensity-model, forest) that does not exist is created, a warning is
recorded, and construction proceeds; a configured file (elastix parameter
file, feature config file) that does not exist always raises a fatal
configuration error, so that no pipeline stage executes.  The
per-directory-warning clause assumes the four configured directory paths are
pairwise distinct, since a directory created for one configuration key
already exists when a later key names the same path. -/
theorem contextInit_dir_file_asymmetry (cwd : String) (cfg : Config) (fs : FS) :
    ((parsePixelSpacing cfg.pixelSpacing).isSome = true →
      isfile fs (abspath cwd cfg.elastixParameterFile) = true →
      isfile fs (abspath cwd cfg.featureConfigFile) = true →
      [abspath cwd cfg.cacheDir, abspath cwd cfg.outputDir,
        abspath cwd cfg.modelDir, abspath cwd cfg.forestDir].Nodup →
      (∃ ctx, (contextInit cwd cfg fs).2.2 = Except.ok ctx) ∧
      (∀ p ∈ [cfg.cacheDir, cfg.outputDir, cfg.modelDir, cfg.forestDir],
        isdir (contextInit cwd cfg fs).1 (abspath cwd p) = true) ∧
      (∀ pn ∈ [(cfg.cacheDir, "cache directory"),
          (cfg.outputDir, "output directory"),
          (cfg.modelDir, "intensity model directory"),
          (cfg.forestDir, "classification forest directory")],
        isdir fs (abspath cwd pn.1) = false →
          dirWarning pn.2 (abspath cwd pn.1) ∈ (contextInit cwd cfg fs).2.1)) ∧
    ((isfile fs (abspath cwd cfg.elastixParameterFile) = false ∨
      isfile fs (abspath cwd cfg.featureConfigFile) = false) →
      (∃ e, (contextInit cwd cfg fs).2.2 = Except.error e) ∧
      (∀ A hp rr, (execute_pipeline A cwd cfg fs hp rr).2.2.1 = [] ∧
        (execute_pipeline A cwd cfg fs hp rr).2.2.2.isSome = true)) := by
  constructor
  · intro hp he hf hnd
    rcases hps : parsePixelSpacing cfg.pixelSpacing with _ | sp
    · rw [hps] at hp
      exact absurd hp (by simp)
    obtain ⟨hab, hac, had, hbc, hbd, hcd⟩ :
        abspath cwd cfg.cacheDir ≠ abspath cwd cfg.outputDir ∧
        abspath cwd cfg.cacheDir ≠ abspath cwd cfg.modelDir ∧
        abspath cwd cfg.cacheDir ≠ abspath cwd cfg.forestDir ∧
        abspath cwd cfg.outputDir ≠ abspath cwd cfg.modelDir ∧
        abspath cwd cfg.outputDir ≠ abspath cwd cfg.forestDir ∧
        abspath cwd cfg.modelDir ≠ abspath cwd cfg.forestDir := by
      simp only [List.nodup_cons, List.mem_cons, List.mem_singleton,
        List.not_mem_nil, or_false, not_or, List.nodup_nil, and_true] at hnd
      exact ⟨hnd.1.1, hnd.1.2.1, hnd.1.2.2, hnd.2.1.1, hnd.2.1.2, hnd.2.2.1⟩
    have heq := contextInit_ok_eq cwd cfg fs sp hps he hf
    rw [heq]
    have hd1 : isdir (check_configured_directory cwd fs cfg.cacheDir
        "cache directory").1 (abspath cwd cfg.cacheDir) = true :=
      isdir_check_configured_directory_self cwd fs cfg.cacheDir "cache directory"
    refine ⟨⟨_, rfl⟩, ?_, ?_⟩
    · intro p hpmem
      rcases List.mem_cons.mp hpmem with h1 | h1
      · subst h1
        exact isdir_check_configured_directory_mono _ _ _ _ _
          (isdir_check_configured_directory_mono _ _ _ _ _
            (isdir_check_configured_directory_mono _ _ _ _ _ hd1))
      rcases List.mem_cons.mp h1 with h2 | h2
      · subst h2
        exact isdir_check_configured_directory_mono _ _ _ _ _
          (isdir_check_configured_directory_mono _ _ _ _ _
            (isdir_check_configured_directory_self _ _ _ _))
      rcases List.mem_cons.mp h2 with h3 | h3
      · subst h3
        exact isdir_check_configured_directory_mono _ _ _ _ _
          (isdir_check_configured_directory_self _ _ _ _)
      rcases List.mem_cons.mp h3 with h4 | h4
      · subst h4
        exact isdir_check_configured_directory_self _ _ _ _
      · exact absurd h4 (List.not_mem_nil p)
    · intro pn hpnmem hmiss
      rcases List.mem_cons.mp hpnmem with h1 | h1
      · subst h1
        dsimp only at hmiss ⊢
        have hw : (check_configured_directory cwd fs cfg.cacheDir
            "cache directory").2.2 =
            some (dirWarning "cache directory" (abspath cwd cfg.cacheDir)) := by
          rw [check_configured_directory_warning, if_neg (by rw [hmiss]; simp)]
        simp [hw]
      rcases List.mem_cons.mp h1 with h2 | h2
      · subst h2
        dsimp only at hmiss ⊢
        have hw : (check_configured_directory cwd
            (check_configured_directory cwd fs cfg.cacheDir "cache directory").1
            cfg.outputDir "output directory").2.2 =
            some (dirWarning "output directory" (abspath cwd cfg.outputDir)) := by
          rw [check_configured_directory_warning,
            isdir_check_configured_directory_ne _ _ _ _ _ (fun hh => hab hh.symm),
            if_neg (by rw [hmiss]; simp)]
        simp [hw]
      rcases List.mem_cons.mp h2 with h3 | h3
      · subst h3
        dsimp only at hmiss ⊢
        have hw : (check_configured_directory cwd
            (check_configured_directory cwd
              (check_configured_directory cwd fs cfg.cacheDir
                "cache directory").1 cfg.outputDir "output directory").1
            cfg.modelDir "intensity model directory").2.2 =
            some (dirWarning "intensity model directory"
              (abspath cwd cfg.modelDir)) := by
          rw [check_configured_directory_warning,
            isdir_check_configured_directory_ne _ _ _ _ _ (fun hh => hbc hh.symm),
            isdir_check_configured_directory_ne _ _ _ _ _ (fun hh => hac hh.symm),
            if_neg (by rw [hmiss]; simp)]
        simp [hw]
      rcases List.mem_cons.mp h3 with h4 | h4
      · subst h4
        dsimp only at hmiss ⊢
        have hw : (check_configured_directory cwd
            (check_configured_directory cwd
              (check_configured_directory cwd
                (check_configured_directory cwd fs cfg.cacheDir
                  "cache directory").1 cfg.outputDir "output directory").1
              cfg.modelDir "intensity model directory").1 cfg.forestDir
            "classification forest directory").2.2 =
            some (dirWarning "classification forest directory"
              (abspath cwd cfg.forestDir)) := by
          rw [check_configured_directory_warning,
            isdir_check_configured_directory_ne _ _ _ _ _ (fun hh => hcd hh.symm),
            isdir_check_configured_directory_ne _ _ _ _ _ (fun hh => hbd hh.symm),
            isdir_check_configured_directory_ne _ _ _ _ _ (fun hh => had hh.symm),
            if_neg (by rw [hmiss]; simp)]
        simp [hw]
      · exact absurd h4 (List.not_mem_nil pn)
  · intro hmiss
    have herr : ∃ e, (contextInit cwd cfg fs).2.2 = Except.error e := by
      rcases hps : parsePixelSpacing cfg.pixelSpacing with _ | sp
      · refine ⟨.valueError ("The configured pixel spacing " ++ cfg.pixelSpacing ++
          " is invalid; must" ++ "be exactly 3 comma-separated numbers with a dot" ++
          "as decimal mark!"), ?_⟩
        simp only [contextInit, hps]
      · rcases he : isfile fs (abspath cwd cfg.elastixParameterFile) with _ | _
        · have he2 : isfile (check_configured_directory cwd
              (check_configured_directory cwd fs cfg.cacheDir
                "cache directory").1 cfg.outputDir "output directory").1
              (abspath cwd cfg.elastixParameterFile) = false := by
            rw [isfile_check_configured_directory,
              isfile_check_configured_directory]
            exact he
          refine ⟨.valueError ("The configured " ++ "elastix configuration file" ++
            " " ++ abspath cwd cfg.elastixParameterFile ++ " does not exist!"), ?_⟩
          simp only [contextInit, hps, check_configured_file_error _ _ _ _ he2]
        · have hf : isfile fs (abspath cwd cfg.featureConfigFile) = false := by
            rcases hmiss with hm | hm
            · rw [he] at hm
              exact absurd hm (by simp)
            · exact hm
          have he2 : isfile (check_configured_directory cwd
              (check_configured_directory cwd fs cfg.cacheDir
                "cache directory").1 cfg.outputDir "output directory").1
              (abspath cwd cfg.elastixParameterFile) = true := by
            rw [isfile_check_configured_directory,
              isfile_check_configured_directory]
            exact he
          have hf2 : isfile (check_configured_directory cwd
              (check_configured_directory cwd
                (check_configured_directory cwd fs cfg.cacheDir
                  "cache directory").1 cfg.outputDir "output directory").1
              cfg.modelDir "intensity model directory").1
              (abspath cwd cfg.featureConfigFile) = false := by
            rw [isfile_check_configured_directory,
              isfile_check_configured_directory,
              isfile_check_configured_directory]
            exact hf
          refine ⟨.valueError ("The configured " ++ "feature configuration file" ++
            " " ++ abspath cwd cfg.featureConfigFile ++ " does not exist!"), ?_⟩
          simp only [contextInit, hps, check_configured_file_ok _ _ _ _ he2,
            check_configured_file_error _ _ _ _ hf2]
    refine ⟨herr, ?_⟩
    intro A hp rr
    rcases herr with ⟨e, he2⟩
    rcases hinit : contextInit cwd cfg fs with ⟨fs1, ws, ce⟩
    rw [hinit] at he2
    have hce : ce = Except.error e := he2
    subst hce
    rcases hg : heapGet hp rr with _ | d0
    · exact ⟨by simp [execute_pipeline, hg], by simp [execute_pipeline, hg]⟩
    · exact ⟨by simp [execute_pipeline, hg, hinit],
        by simp [execute_pipeline, hg, hinit]⟩

/-- Witness for C5: with the cache directory absent but all configured files
present, construction succeeds and records the cache-directory warning; with
the elastix parameter file absent, construction raises and the driver
executes no stage. -/
theorem contextInit_dir_file_asymmetry_witness :
    ((∃ ctx, (contextInit "/c" cfgFull fsPartial).2.2 = Except.ok ctx) ∧
      dirWarning "cache directory" (abspath "/c" cfgFull.cacheDir) ∈
        (contextInit "/c" cfgFull fsPartial).2.1) ∧
    ((∃ e, (contextInit "/c" cfgFull
        { dirs := fsFull.dirs, files := [("/f.conf", "features")] }).2.2 =
          Except.error e) ∧
      (execute_pipeline tagAdapter "/c" cfgFull
        { dirs := fsFull.dirs, files := [("/f.conf", "features")] }
        heapFull 0).2.2.1 = []) := by
  have h1 := (contextInit_dir_file_asymmetry "/c" cfgFull fsPartial).1
    (by decide) (by decide) (by decide) (by decide)
  have h2 := (contextInit_dir_file_asymmetry "/c" cfgFull
    { dirs := fsFull.dirs, files := [("/f.conf", "features")] }).2
    (Or.inl (by decide))
  exact ⟨⟨h1.1, h1.2.2 (cfgFull.cacheDir, "cache directory") (by simp)
    (by decide)⟩, ⟨h2.1, (h2.2 tagAdapter heapFull 0).1⟩⟩

/-- Witness for C7: the end-to-end run publishes both outputs as references
to the classification results. -/
theorem publication_all_or_nothing_witness :
    ∃ d0 fs1 ws ctx dF seg prob tr,
      heapGet heapFull 0 = some d0 ∧
      contextInit "/c" cfgFull fsFull = (fs1, ws, Except.ok ctx) ∧
      pipelineStages tagAdapter ctx fs1 d0 = Except.ok (dF, seg, prob, tr) ∧
      fsFileLookup (execute_pipeline tagAdapter "/c" cfgFull fsFull heapFull 0).2.1
        (pathJoin ctx.outputDir "segmentation.nii.gz") = some seg ∧
      fsFileLookup (execute_pipeline tagAdapter "/c" cfgFull fsFull heapFull 0).2.1
        (pathJoin ctx.outputDir "probability.nii.gz") = some prob :=
  (publication_all_or_nothing tagAdapter "/c" cfgFull fsFull heapFull 0).2
    (by decide)

end Albo
